import Mathlib

/-!
Verification of the SixtyFourWorkflow repository against its
natural-language specification.

The repository is a workflow builder/engine: a Next.js frontend
(WorkflowBuilder, BlockComponent, JobMonitor, ResultsPanel, the
`types/workflow.ts` data model) and a FastAPI backend (block executors,
pipeline scheduler, enrichment client).  The frontend sources are
embedded below definition-by-definition.  The backend sources are not
part of the available tree; where a claim depends on them, the relevant
operation is modelled from the specification and marked as such in its
doc comment.

Identifiers (uuids) are modelled as `Nat`; pixel coordinates as `Int`;
the dynamic `Record<string, any>` parameter maps as association lists
over a small value universe.
-/

/-- From `frontend/src/types/workflow.ts`:
`export type BlockType = 'read_csv' | 'save_csv' | 'filter' | 'enrich_lead' | 'find_email'`. -/
inductive BlockType where
  | read_csv
  | save_csv
  | filter
  | enrich_lead
  | find_email
deriving DecidableEq, Repr

/-- From `frontend/src/types/workflow.ts`:
`export type JobStatus = 'pending' | 'running' | 'completed' | 'failed' | 'cancelled'`. -/
inductive JobStatus where
  | pending
  | running
  | completed
  | failed
  | cancelled
deriving DecidableEq, Repr

/-- A value of the dynamic `Record<string, any>` parameter maps: a string,
a number, a boolean, or a nested string-to-string object (the `struct`
field schema). -/
inductive ParamValue where
  | s (v : String)
  | n (v : Nat)
  | b (v : Bool)
  | obj (fields : List (String × String))
deriving DecidableEq, Repr

/-- From `frontend/src/types/workflow.ts`: `Position` is `{ x: number; y: number }`.
Pixel coordinates are modelled as integers. -/
structure Position where
  x : Int
  y : Int
deriving DecidableEq, Repr

/-- From `frontend/src/types/workflow.ts`: `WorkflowConnection` with
`connection_id`, `source_block_id`, `target_block_id` (uuids modelled as `Nat`). -/
structure WorkflowConnection where
  connection_id : Nat
  source_block_id : Nat
  target_block_id : Nat
deriving DecidableEq, Repr

/-- From `frontend/src/types/workflow.ts`: `BlockConfig` with
`block_id`, `block_type`, `name`, `parameters`, `position`. -/
structure BlockConfig where
  block_id : Nat
  block_type : BlockType
  name : String
  parameters : List (String × ParamValue)
  position : Position
deriving DecidableEq, Repr

/-- The `WorkflowBuilder` component state relevant to graph editing:
`blocks` and `connections` (the two `useState` lists). -/
structure BuilderState where
  blocks : List BlockConfig
  connections : List WorkflowConnection
deriving DecidableEq, Repr

/-- `connections.find(conn => conn.source_block_id === sourceId && conn.target_block_id === targetId)`
tested for truthiness, i.e. whether an ordered `(sourceId, targetId)` pair is present. -/
def pairExists (conns : List WorkflowConnection) (sourceId targetId : Nat) : Bool :=
  conns.any (fun c => c.source_block_id == sourceId && c.target_block_id == targetId)

/-- `connectBlocks` from `WorkflowBuilder.tsx`: if the ordered pair already
exists, or source equals target, the connection list is left unchanged
(with a toast error); otherwise a new connection is appended. -/
def connectBlocks (conns : List WorkflowConnection) (newId sourceId targetId : Nat) :
    List WorkflowConnection :=
  if pairExists conns sourceId targetId then conns
  else if sourceId == targetId then conns
  else conns ++ [⟨newId, sourceId, targetId⟩]

/-- `finishConnection` from the click-to-connect `WorkflowBuilder.tsx` variant:
returns early unless a connection is in progress (`connectingFrom` set and
`isConnecting`), then performs the same duplicate-pair and self-loop checks
as `connectBlocks` before appending. -/
def finishConnection (connectingFrom : Option Nat) (isConnecting : Bool)
    (conns : List WorkflowConnection) (newId targetId : Nat) : List WorkflowConnection :=
  match connectingFrom, isConnecting with
  | some src, true =>
      if pairExists conns src targetId then conns
      else if src == targetId then conns
      else conns ++ [⟨newId, src, targetId⟩]
  | _, _ => conns

/-- A reciprocated edge pair: some connection whose reversed ordered pair is
also present.  Two mutually-inverse edges between distinct blocks form a
two-node cycle in the induced directed graph, so
`hasTwoCycle conns = true` witnesses that the induced graph is cyclic. -/
def hasTwoCycle (conns : List WorkflowConnection) : Bool :=
  conns.any (fun c => pairExists conns c.target_block_id c.source_block_id)

/-- The spec's Connection invariant, §3: no self-loop and no duplicate
ordered `(source, target)` pair in the connection list. -/
def connListOk (conns : List WorkflowConnection) : Prop :=
  (∀ c ∈ conns, c.source_block_id ≠ c.target_block_id) ∧
  List.Pairwise (fun a b =>
    ¬(a.source_block_id = b.source_block_id ∧ a.target_block_id = b.target_block_id)) conns

/-- `removeBlock` from `WorkflowBuilder.tsx`: drops the block with the given id
and every connection having it as source or target. -/
def removeBlock (st : BuilderState) (blockId : Nat) : BuilderState :=
  { blocks := st.blocks.filter (fun b => b.block_id != blockId)
    connections := st.connections.filter (fun c =>
      c.source_block_id != blockId && c.target_block_id != blockId) }

/-- Referential integrity of the builder state: every connection endpoint
names an existing block. -/
def refsOk (st : BuilderState) : Prop :=
  ∀ c ∈ st.connections,
    (∃ b ∈ st.blocks, b.block_id = c.source_block_id) ∧
    (∃ b ∈ st.blocks, b.block_id = c.target_block_id)

/-- `getDefaultParameters` from `WorkflowBuilder.tsx` (the drag-to-connect
variant, identical in the list-based builder variant): the kind-specific
default configuration map for a newly created block. -/
def getDefaultParameters : BlockType → List (String × ParamValue)
  | .read_csv =>
      [("file_path", .s "sample_data.csv"), ("delimiter", .s ","),
       ("encoding", .s "utf-8"), ("skip_rows", .n 0)]
  | .save_csv =>
      [("file_path", .s ""), ("delimiter", .s ","),
       ("encoding", .s "utf-8"), ("index", .b false)]
  | .filter =>
      [("condition", .s "df[\x27company\x27].str.contains(\x27Ariglad\x27, na=False)")]
  | .enrich_lead =>
      [("struct", .obj
         [("name", "Full name"), ("email", "Email address"),
          ("company", "Company name"), ("title", "Job title"),
          ("linkedin", "LinkedIn URL"),
          ("education", "Educational background including university")]),
       ("batch_size", .n 10), ("timeout", .n 30)]
  | .find_email =>
      [("batch_size", .n 10), ("timeout", .n 30)]

/-- `getDefaultParameters` from the click-to-connect `WorkflowBuilder.tsx`
variant: same shape, a richer `enrich_lead` field schema, and
`bruteforce`/`only_company_emails` toggles on `find_email`. -/
def getDefaultParametersV2 : BlockType → List (String × ParamValue)
  | .read_csv =>
      [("file_path", .s "sample_data.csv"), ("delimiter", .s ","),
       ("encoding", .s "utf-8"), ("skip_rows", .n 0)]
  | .save_csv =>
      [("file_path", .s ""), ("delimiter", .s ","),
       ("encoding", .s "utf-8"), ("index", .b false)]
  | .filter =>
      [("condition", .s "df[\x27company\x27].str.contains(\x27Ariglad Inc\x27, na=False)")]
  | .enrich_lead =>
      [("struct", .obj
         [("name", "The individual\x27s full name"),
          ("email", "The individual\x27s email address"),
          ("phone", "The individual\x27s phone number"),
          ("company", "The company the individual is associated with"),
          ("title", "The individual\x27s job title"),
          ("linkedin", "LinkedIn URL for the person"),
          ("website", "Company website URL"),
          ("location", "The individual\x27s location and/or company location"),
          ("industry", "Industry the person operates in"),
          ("github_url", "URL for their GitHub profile"),
          ("github_notes", "Take detailed notes on their GitHub profile.")]),
       ("batch_size", .n 10)]
  | .find_email =>
      [("batch_size", .n 10), ("bruteforce", .b true),
       ("only_company_emails", .b false)]

/-- Modelled from the spec: the Enrichment Client (backend, not under the
available sources) "partitions records into batches of `batchSize`
(default 10) concurrent in-flight requests" (§4.3). -/
def clientDefaultBatchSize : Nat := 10

/-- The overlap test from `addBlock` in `WorkflowBuilder.tsx`:
`Math.abs(pos.x - x) < 220 && Math.abs(pos.y - y) < 140`. -/
def overlapsPos (p : Position) (x y : Int) : Bool :=
  (p.x - x).natAbs < 220 && (p.y - y).natAbs < 140

/-- `existingPositions.some(pos => ...)`: the candidate position collides
with some existing block position. -/
def overlapsAny (ps : List Position) (x y : Int) : Bool :=
  ps.any (fun p => overlapsPos p x y)

/-- Largest y-coordinate among the existing positions (0 when none);
used only to bound the free-position search. -/
def maxYPos (ps : List Position) : Int :=
  ps.foldr (fun p acc => max p.y acc) 0

theorem y_le_maxYPos {ps : List Position} {p : Position} (h : p ∈ ps) :
    p.y ≤ maxYPos ps := by
  induction ps with
  | nil => cases h
  | cons q qs ih =>
      rw [List.mem_cons] at h
      rcases h with rfl | h
      · simp [maxYPos]
      · simp only [maxYPos, List.foldr_cons] at *
        exact le_trans (ih h) (le_max_right _ _)

theorem overlapsAny_y_lt {ps : List Position} {x y : Int}
    (h : overlapsAny ps x y = true) : y < maxYPos ps + 140 := by
  rcases List.any_eq_true.mp h with ⟨p, hp, hover⟩
  simp only [overlapsPos, Bool.and_eq_true, decide_eq_true_eq] at hover
  have := y_le_maxYPos hp
  omega

/-- The free-position search loop from `addBlock` in `WorkflowBuilder.tsx`:
`while (existingPositions.some(...)) { x += 250; if (x > 800) { x = 200; y += 160 } }`.
Each pass moves right by 250 and wraps to a new row (`x = 200`, `y += 160`)
past `x = 800`; the search ends at the first candidate overlapping no
existing position. -/
def addBlockPositionLoop (ps : List Position) (x y : Int) : Int × Int :=
  if h : overlapsAny ps x y then
    if h2 : x + 250 > 800 then addBlockPositionLoop ps 200 (y + 160)
    else addBlockPositionLoop ps (x + 250) y
  else (x, y)
termination_by ((maxYPos ps + 140 - y).toNat * 1000 + (800 - x).toNat)
decreasing_by
  · have hy := overlapsAny_y_lt h
    omega
  · omega

/-- The position chosen by `addBlock` when no explicit position is supplied:
the loop starting at the default `(200, 200)`. -/
def addBlockPosition (ps : List Position) : Int × Int :=
  addBlockPositionLoop ps 200 200

/-- An intermediate table row: named columns with one value per cell
(cells modelled as strings, which execution never inspects). -/
abbrev Row := List (String × String)

/-- The table preview produced by `renderDataPreview` in `ResultsPanel.tsx`
(table view mode): the rows actually rendered, and, when the data is
truncated, the footer figures of the "Showing {maxRows} of {data.length}
rows" line. -/
structure DataPreview where
  shownRows : List Row
  footer : Option (Nat × Nat)
deriving DecidableEq, Repr

/-- `const maxRows = 10` in `renderDataPreview`: the preview row bound. -/
def maxRows : Nat := 10

/-- `renderDataPreview` from `ResultsPanel.tsx`, table view mode, on a
block-result data array of row objects: renders `data.slice(0, maxRows)`
and, when `data.length > maxRows`, the "Showing {maxRows} of {data.length}
rows" footer.  An empty array takes the non-table fallback, modelled as
`none`. -/
def renderDataPreview (data : List Row) : Option DataPreview :=
  if 0 < data.length then
    some { shownRows := data.take maxRows
           footer := if maxRows < data.length then some (maxRows, data.length) else none }
  else none

/-- Per-row predicate evaluation in the filter executor: `none` when the
predicate cannot be evaluated on the row (e.g. a missing column). -/
abbrev RowPred := Row → Option Bool

/-- Modelled from the spec: the `filter` Block Executor (backend, not under
the available sources), §4.4: "evaluates a boolean row predicate ...
produces the subset of rows satisfying it; rows failing predicate
evaluation (e.g. missing column) are treated as non-matching, not fatal". -/
def filterExec (pred : RowPred) (t : List Row) : List Row :=
  t.filter (fun r => (pred r).getD false)

/-- Outcome of one record's enrichment call: the fields returned by the
service, or a per-record failure message. -/
inductive EnrichOutcome where
  | ok (fields : List (String × String))
  | err (msg : String)
deriving DecidableEq, Repr

/-- Modelled from the spec: the `enrich-record` Block Executor (backend, not
under the available sources), §4.4: "for each row ... calls the Enrichment
Client ... merges returned fields back into the row; rows whose enrichment
call failed retain original columns plus an error marker column rather
than being dropped."  Merging is appending the returned fields (lookup
takes the first binding, so original columns are retained either way). -/
def enrich_record (call : Row → EnrichOutcome) (t : List Row) : List Row :=
  t.map (fun r =>
    match call r with
    | .ok fields => r ++ fields
    | .err m => r ++ [("enrichment_error", m)])

/-- Modelled from the spec: the `find-contact` Block Executor (backend, not
under the available sources), §4.4: "structurally identical to
enrich-record but targets a narrower field schema ... and supports an
aggressive-search toggle affecting request parameters only"; the schema
and toggle are absorbed into the per-row call. -/
def find_contact (call : Row → EnrichOutcome) (t : List Row) : List Row :=
  t.map (fun r =>
    match call r with
    | .ok fields => r ++ fields
    | .err m => r ++ [("enrichment_error", m)])

/-- The recorded outcome of executing one block within a job
(`JobResult` in `frontend/src/types/workflow.ts`, row counts and timing
elided where no claim mentions them). -/
structure BlockResult where
  block_id : Nat
  success : Bool
  rows_processed : Nat
  rows_output : Nat
deriving DecidableEq, Repr

/-- Modelled from the spec: the Pipeline Scheduler's per-job state (backend,
not under the available sources), §4.5: status, the queue of not-yet-started
blocks in topological order, the results appended so far in execution
order, and whether a cancellation request is pending. -/
structure JobState where
  status : JobStatus
  queued : List Nat
  results : List BlockResult
  cancelRequested : Bool
deriving DecidableEq, Repr

/-- Modelled from the spec: one inter-block step of the Pipeline Scheduler
(backend, not under the available sources), §4.5: on a non-`running` job
the step does nothing (terminal states are never mutated); at the safe
suspension point between blocks a pending cancellation is observed first
(`running → cancelled`, keeping all results, starting no block); otherwise
the next queued block executes and its `BlockResult` is appended, or the
job completes when the queue is empty. -/
def schedStep (exec : Nat → BlockResult) (s : JobState) : JobState :=
  if s.status ≠ JobStatus.running then s
  else if s.cancelRequested then { s with status := JobStatus.cancelled }
  else
    match s.queued with
    | [] => { s with status := JobStatus.completed }
    | b :: rest => { s with queued := rest, results := s.results ++ [exec b] }

/-- Modelled from the spec: the job-status transition relation, §4.5:
`pending → running` on the execution request and `running → {completed |
failed | cancelled}`; nothing else. -/
inductive JobTransition : JobStatus → JobStatus → Prop where
  | start : JobTransition JobStatus.pending JobStatus.running
  | complete : JobTransition JobStatus.running JobStatus.completed
  | fail : JobTransition JobStatus.running JobStatus.failed
  | cancel : JobTransition JobStatus.running JobStatus.cancelled

/-- From `JobMonitor.tsx`: the Cancel Job button (and with it the
`cancelJob` request) is rendered only when `selectedJob.status === 'running'`. -/
def canCancelJob (s : JobStatus) : Bool :=
  s == JobStatus.running

theorem pairExists_false {conns : List WorkflowConnection} {s t : Nat}
    (h : pairExists conns s t = false) :
    ∀ c ∈ conns, ¬(c.source_block_id = s ∧ c.target_block_id = t) := by
  intro c hc
  simp only [pairExists, List.any_eq_false, Bool.and_eq_true, beq_iff_eq] at h
  exact h c hc

/-- Claim C1: contrary to the claim that a cycle-creating connection is
rejected, both `connectBlocks` and `finishConnection` accept the reverse
connection B→A after A→B (blocks 1 and 2, fresh connection ids 0 and 3):
the connection is appended and the induced graph over the blocks contains
the two-node cycle 1→2→1. -/
theorem connect_cycle_admitted :
    connectBlocks (connectBlocks [] 0 1 2) 3 2 1 =
      [⟨0, 1, 2⟩, ⟨3, 2, 1⟩] ∧
    finishConnection (some 2) true [⟨0, 1, 2⟩] 3 1 =
      [⟨0, 1, 2⟩, ⟨3, 2, 1⟩] ∧
    hasTwoCycle [⟨0, 1, 2⟩, ⟨3, 2, 1⟩] = true := by
  decide

/-- Claim C2: `connectBlocks` leaves the connection list unchanged on a
self-loop or an already-present ordered pair and otherwise appends exactly
the one new connection; consequently it preserves the no-self-loop /
no-duplicate-pair invariant of the connection list. -/
theorem connectBlocks_spec (conns : List WorkflowConnection)
    (newId sourceId targetId : Nat) :
    connectBlocks conns newId sourceId targetId =
      (if sourceId = targetId ∨ pairExists conns sourceId targetId = true
        then conns else conns ++ [⟨newId, sourceId, targetId⟩]) ∧
    (connListOk conns → connListOk (connectBlocks conns newId sourceId targetId)) := by
  constructor
  · unfold connectBlocks
    by_cases hp : pairExists conns sourceId targetId
    · simp [hp]
    · by_cases hs : sourceId = targetId
      · simp [hp, hs]
      · simp [hp, hs]
  · intro hok
    unfold connectBlocks
    by_cases hp : pairExists conns sourceId targetId
    · simpa [hp] using hok
    · by_cases hs : sourceId = targetId
      · simpa [hp, hs] using hok
      · rw [if_neg (by simpa using hp), if_neg (by simpa using hs)]
        have hnp := pairExists_false (Bool.not_eq_true _ ▸ hp : pairExists conns sourceId targetId = false)
        constructor
        · intro c hc
          rcases List.mem_append.mp hc with hc | hc
          · exact hok.1 c hc
          · simp only [List.mem_singleton] at hc
            subst hc
            simpa using hs
        · rw [List.pairwise_append]
          refine ⟨hok.2, by simp, ?_⟩
          intro a ha b hb
          simp only [List.mem_singleton] at hb
          subst hb
          simpa using hnp a ha

/-- Witness for C2 at a concrete input: starting from the singleton list
holding 1→2, connecting 3→4 appends it and the invariant still holds. -/
theorem connectBlocks_spec_witness :
    connListOk (connectBlocks [⟨0, 1, 2⟩] 5 3 4) :=
  (connectBlocks_spec [⟨0, 1, 2⟩] 5 3 4).2 (by simp [connListOk])

/-- Claim C9: `removeBlock` keeps exactly the blocks with a different id and
exactly the connections touching the removed id at neither endpoint, and it
preserves referential integrity: if every connection referenced existing
blocks before, the same holds afterwards. -/
theorem removeBlock_spec (st : BuilderState) (blockId : Nat) :
    (∀ b, b ∈ (removeBlock st blockId).blocks ↔
        b ∈ st.blocks ∧ b.block_id ≠ blockId) ∧
    (∀ c, c ∈ (removeBlock st blockId).connections ↔
        c ∈ st.connections ∧ c.source_block_id ≠ blockId ∧
          c.target_block_id ≠ blockId) ∧
    (refsOk st → refsOk (removeBlock st blockId)) := by
  refine ⟨?_, ?_, ?_⟩
  · intro b
    simp [removeBlock, List.mem_filter, bne_iff_ne]
  · intro c
    simp [removeBlock, List.mem_filter, bne_iff_ne]
  · intro hok c hc
    simp only [removeBlock, List.mem_filter, Bool.and_eq_true, bne_iff_ne, ne_eq] at hc
    obtain ⟨hcmem, hcs, hct⟩ := hc
    obtain ⟨⟨bs, hbs, hbsid⟩, ⟨bt, hbt, hbtid⟩⟩ := hok c hcmem
    constructor
    · refine ⟨bs, ?_, hbsid⟩
      simp only [removeBlock, List.mem_filter, bne_iff_ne, ne_eq]
      exact ⟨hbs, by simp [hbsid, hcs]⟩
    · refine ⟨bt, ?_, hbtid⟩
      simp only [removeBlock, List.mem_filter, bne_iff_ne, ne_eq]
      exact ⟨hbt, by simp [hbtid, hct]⟩

/-- Witness for C9 at a concrete state: two blocks 1 and 2 joined by one
connection; removing block 2 keeps referential integrity. -/
theorem removeBlock_spec_witness :
    refsOk (removeBlock
      { blocks :=
          [{ block_id := 1, block_type := BlockType.read_csv, name := "Read CSV",
             parameters := [], position := { x := 200, y := 200 } },
           { block_id := 2, block_type := BlockType.save_csv, name := "Save CSV",
             parameters := [], position := { x := 450, y := 200 } }]
        connections := [⟨0, 1, 2⟩] } 2) :=
  (removeBlock_spec _ 2).2.2 (by simp [refsOk])

/-- Claim C7: both builder variants give newly created `enrich_lead` and
`find_email` blocks a default `batch_size` of 10, the Enrichment Client's
default batch size. -/
theorem defaultBatchSize_matches_client :
    (getDefaultParameters BlockType.enrich_lead).lookup "batch_size"
        = some (ParamValue.n clientDefaultBatchSize) ∧
    (getDefaultParameters BlockType.find_email).lookup "batch_size"
        = some (ParamValue.n clientDefaultBatchSize) ∧
    (getDefaultParametersV2 BlockType.enrich_lead).lookup "batch_size"
        = some (ParamValue.n clientDefaultBatchSize) ∧
    (getDefaultParametersV2 BlockType.find_email).lookup "batch_size"
        = some (ParamValue.n clientDefaultBatchSize) := by
  refine ⟨rfl, rfl, rfl, rfl⟩

theorem addBlockPositionLoop_free (ps : List Position) (x y : Int) :
    overlapsAny ps (addBlockPositionLoop ps x y).1
      (addBlockPositionLoop ps x y).2 = false := by
  induction x, y using addBlockPositionLoop.induct ps with
  | case1 x y h h2 ih => rw [addBlockPositionLoop]; simp [h, h2]; exact ih
  | case2 x y h h2 ih => rw [addBlockPositionLoop]; simp [h, h2]; exact ih
  | case3 x y h => rw [addBlockPositionLoop]; simp [h]

/-- Claim C10: the free-position search loop of `addBlock` terminates on
every finite list of existing positions (it is a total function below),
and the position it returns is within 220 horizontally and 140 vertically
of no existing block position. -/
theorem addBlockPosition_no_overlap (ps : List Position) :
    ∀ p ∈ ps, ¬((p.x - (addBlockPosition ps).1).natAbs < 220 ∧
                (p.y - (addBlockPosition ps).2).natAbs < 140) := by
  intro p hp hcontra
  have hfree := addBlockPositionLoop_free ps 200 200
  rw [show addBlockPositionLoop ps 200 200 = addBlockPosition ps from rfl] at hfree
  simp only [overlapsAny, List.any_eq_false] at hfree
  have := hfree p hp
  simp only [overlapsPos, Bool.and_eq_true, decide_eq_true_eq, not_and] at this
  exact absurd hcontra.2 (this hcontra.1)

/-- Witness for C10 at a concrete input: with one block already at the
default spot (200, 200), the chosen position collides with it neither
horizontally nor vertically. -/
theorem addBlockPosition_no_overlap_witness :
    ¬((((200 : Int)) - (addBlockPosition [⟨200, 200⟩]).1).natAbs < 220 ∧
      (((200 : Int)) - (addBlockPosition [⟨200, 200⟩]).2).natAbs < 140) :=
  addBlockPosition_no_overlap [⟨200, 200⟩] ⟨200, 200⟩ (by simp)

/-- Claim C8: `renderDataPreview` in table mode on a nonempty data array
renders exactly `min(length, 10)` rows, reports "10 of length" exactly
when the array has more than 10 rows, and omits the footer otherwise. -/
theorem renderDataPreview_bounded (data : List Row) (h : 0 < data.length) :
    ∃ p, renderDataPreview data = some p ∧
      p.shownRows.length = min data.length maxRows ∧
      (maxRows < data.length → p.footer = some (maxRows, data.length)) ∧
      (data.length ≤ maxRows → p.footer = none) := by
  refine ⟨_, by rw [renderDataPreview, if_pos h], ?_, ?_, ?_⟩
  · simp [List.length_take, Nat.min_comm]
  · intro hlt
    simp [if_pos hlt]
  · intro hle
    simp [if_neg (Nat.not_lt.mpr hle)]

/-- Witness for C8 at a concrete input: a 12-row data array is previewed
as 10 rows with a "10 of 12" footer. -/
theorem renderDataPreview_bounded_witness :
    ∃ p, renderDataPreview (List.replicate 12 ([] : Row)) = some p ∧
      p.shownRows.length = min (List.replicate 12 ([] : Row)).length maxRows ∧
      (maxRows < (List.replicate 12 ([] : Row)).length →
        p.footer = some (maxRows, (List.replicate 12 ([] : Row)).length)) ∧
      ((List.replicate 12 ([] : Row)).length ≤ maxRows → p.footer = none) :=
  renderDataPreview_bounded (List.replicate 12 ([] : Row)) (by simp)

/-- Claim C3: the filter executor never increases the row count, its output
is a sublist (hence subset) of the input, and a row is kept exactly when
its predicate evaluates successfully to true — rows whose evaluation fails
are treated as non-matching, not fatal. -/
theorem filterExec_spec (pred : RowPred) (t : List Row) :
    (filterExec pred t).length ≤ t.length ∧
    List.Sublist (filterExec pred t) t ∧
    ∀ r, r ∈ filterExec pred t ↔ r ∈ t ∧ (pred r).getD false = true := by
  refine ⟨List.length_filter_le _ t, List.filter_sublist t, ?_⟩
  intro r
  simp [filterExec, List.mem_filter]

/-- Claim C4: the enrich-record and find-contact executors preserve the
exact row count; the i-th output row is the i-th input row extended with
either the returned fields (success) or the single error-marker column
(per-row failure) — no row is dropped. -/
theorem enrich_preserves_rows (call call2 : Row → EnrichOutcome) (t : List Row) :
    (enrich_record call t).length = t.length ∧
    (find_contact call2 t).length = t.length ∧
    ∀ i, i < t.length →
      ∃ r extra, t[i]? = some r ∧
        (enrich_record call t)[i]? = some (r ++ extra) ∧
        (∀ fs, call r = EnrichOutcome.ok fs → extra = fs) ∧
        (∀ m, call r = EnrichOutcome.err m →
          extra = [("enrichment_error", m)]) := by
  refine ⟨by simp [enrich_record], by simp [find_contact], ?_⟩
  intro i hi
  have hsome : t[i]? = some t[i] := List.getElem?_eq_getElem hi
  cases hcall : call t[i] with
  | ok fs =>
      refine ⟨t[i], fs, hsome, ?_, ?_, ?_⟩
      · simp [enrich_record, List.getElem?_map, hsome, hcall]
      · intro fs2 h2
        rw [hcall] at h2
        cases h2
        rfl
      · intro m h2
        rw [hcall] at h2
        cases h2
  | err m =>
      refine ⟨t[i], [("enrichment_error", m)], hsome, ?_, ?_, ?_⟩
      · simp [enrich_record, List.getElem?_map, hsome, hcall]
      · intro fs2 h2
        rw [hcall] at h2
        cases h2
      · intro m2 h2
        rw [hcall] at h2
        cases h2
        rfl

/-- Witness for C4 at a concrete input: a one-row table whose enrichment
call fails keeps the row, extended with the error marker. -/
theorem enrich_preserves_rows_witness :
    ∃ r extra,
      ([[("name", "Ada")]] : List Row)[0]? = some r ∧
      (enrich_record (fun _ => EnrichOutcome.err "timeout")
        [[("name", "Ada")]])[0]? = some (r ++ extra) ∧
      (∀ fs, (fun _ => EnrichOutcome.err "timeout") r = EnrichOutcome.ok fs →
        extra = fs) ∧
      (∀ m, (fun _ => EnrichOutcome.err "timeout") r = EnrichOutcome.err m →
        extra = [("enrichment_error", m)]) :=
  (enrich_preserves_rows (fun _ => EnrichOutcome.err "timeout")
    (fun _ => EnrichOutcome.ok []) [[("name", "Ada")]]).2.2 0 (by simp)

/-- Claim C5: when a running job has a pending cancellation, the next
scheduler step cancels the job, keeps every already-recorded BlockResult
unchanged, appends no result, and starts no queued block; and a cancelled
job is terminal, so no later step changes it either. -/
theorem cancelled_job_preserved (exec exec2 : Nat → BlockResult)
    (s s2 : JobState) (hrun : s.status = JobStatus.running)
    (hcancel : s.cancelRequested = true)
    (h2 : s2.status = JobStatus.cancelled) :
    (schedStep exec s).results = s.results ∧
    (schedStep exec s).queued = s.queued ∧
    (schedStep exec s).status = JobStatus.cancelled ∧
    schedStep exec2 s2 = s2 := by
  have hstep : schedStep exec s = { s with status := JobStatus.cancelled } := by
    rw [schedStep, if_neg (by simp [hrun]), if_pos hcancel]
  have hstep2 : schedStep exec2 s2 = s2 := by
    rw [schedStep, if_pos (by simp [h2])]
  exact ⟨by rw [hstep], by rw [hstep], by rw [hstep], hstep2⟩

/-- Witness for C5 at a concrete job: one completed block result, two
queued blocks, cancellation requested. -/
theorem cancelled_job_preserved_witness :
    (schedStep (fun b => ⟨b, true, 1, 1⟩)
      ⟨JobStatus.running, [2, 3], [⟨1, true, 5, 5⟩], true⟩).results
        = [⟨1, true, 5, 5⟩] ∧
    (schedStep (fun b => ⟨b, true, 1, 1⟩)
      ⟨JobStatus.running, [2, 3], [⟨1, true, 5, 5⟩], true⟩).queued = [2, 3] ∧
    (schedStep (fun b => ⟨b, true, 1, 1⟩)
      ⟨JobStatus.running, [2, 3], [⟨1, true, 5, 5⟩], true⟩).status
        = JobStatus.cancelled ∧
    schedStep (fun b => ⟨b, true, 1, 1⟩)
      ⟨JobStatus.cancelled, [2, 3], [⟨1, true, 5, 5⟩], true⟩
        = ⟨JobStatus.cancelled, [2, 3], [⟨1, true, 5, 5⟩], true⟩ :=
  cancelled_job_preserved (fun b => ⟨b, true, 1, 1⟩) (fun b => ⟨b, true, 1, 1⟩)
    ⟨JobStatus.running, [2, 3], [⟨1, true, 5, 5⟩], true⟩
    ⟨JobStatus.cancelled, [2, 3], [⟨1, true, 5, 5⟩], true⟩ rfl rfl rfl

/-- Claim C6: the job status ranges over exactly pending, running,
completed, failed and cancelled; the only transitions are
pending→running and running→{completed, failed, cancelled}; the three
latter states are terminal; and the frontend issues a cancellation
request only against a running job. -/
theorem jobStatus_machine :
    (∀ s : JobStatus, s = JobStatus.pending ∨ s = JobStatus.running ∨
      s = JobStatus.completed ∨ s = JobStatus.failed ∨
      s = JobStatus.cancelled) ∧
    (∀ a b, JobTransition a b →
      (a = JobStatus.pending ∧ b = JobStatus.running) ∨
      (a = JobStatus.running ∧ (b = JobStatus.completed ∨
        b = JobStatus.failed ∨ b = JobStatus.cancelled))) ∧
    (∀ s b, (s = JobStatus.completed ∨ s = JobStatus.failed ∨
      s = JobStatus.cancelled) → ¬JobTransition s b) ∧
    (∀ s, canCancelJob s = true → s = JobStatus.running) := by
  refine ⟨?_, ?_, ?_, ?_⟩
  · intro s
    cases s <;> simp
  · intro a b h
    cases h <;> simp
  · intro s b h ht
    cases ht <;> rcases h with h | h | h <;> simp_all
  · intro s h
    cases s <;> simp_all [canCancelJob]

/-- Witness for C6 at concrete states: completed is terminal (no
transition to running), and a cancellable status is running. -/
theorem jobStatus_machine_witness :
    ¬JobTransition JobStatus.completed JobStatus.running :=
  jobStatus_machine.2.2.1 JobStatus.completed JobStatus.running (Or.inl rfl)
